import Mathlib

/-!
Access-log formatter of `pkg/log/accesslog.go`

A shallow embedding of the access-log format compiler (`formatToFormatter`,
`NewAccessLogFormatter`), of the three line formatters, of the composite
formatter, of the constructor `NewAccessLog` and of the `Log` entry point,
followed by the properties proved about them.

Conventions of the embedding:

* a Go `string` is its sequence of bytes (`GoString`); `len` is `List.length`;
* a slice expression `s[lo:hi]` is `sliceStr`, which checks the bounds the way
  the Go run time does and yields `GoPanic.sliceBoundsOutOfRange` otherwise;
* a `[]string` is a `List GoString`; the slices of this file are only ever
  built by `append` from a `nil` slice, so `nil` is the empty list;
* a `map[string]string` is a `GoMap`, either `nil` or a table of entries;
* the constants of package `types` (the reserved prefixes, the field names and
  the default format) are not part of this file and are taken as a parameter
  `T : Types`;
* `types.RequestInfo` is an interface; a value of it is the record of what its
  methods return.
-/

namespace Accesslog

/-! ## Go values -/

/-- A Go string: an immutable sequence of bytes. -/
abbrev GoString := List UInt8

/-- The bytes of a string literal, UTF-8 encoded as in Go source text. -/
def utf8 (s : String) : GoString := s.data.flatMap String.utf8EncodeChar

/-- The byte of the separator `" "`. -/
def space : UInt8 := 32

/-- Run-time panics of the Go code modelled here. -/
inductive GoPanic where
  | sliceBoundsOutOfRange
  deriving DecidableEq, Repr

/-- The slice expression `s[lo:hi]` on a string: the bytes from index `lo`
up to index `hi` (excluded) when `0 ≤ lo ≤ hi ≤ len(s)`, a run-time panic
otherwise. -/
def sliceStr (s : GoString) (lo hi : Int) : Except GoPanic GoString :=
  if 0 ≤ lo ∧ lo ≤ hi ∧ hi ≤ (s.length : Int) then
    .ok ((s.drop lo.toNat).take (hi - lo).toNat)
  else
    .error .sliceBoundsOutOfRange

/-- Library `strings.Split(s, sep)` for a one-byte separator: the pieces of
`s` between the occurrences of `sep`; one more piece than occurrences. -/
def Split (s : GoString) (sep : UInt8) : List GoString := s.splitOn sep

/-- Library `strings.HasPrefix(s, prefix)`:
`len(s) >= len(prefix) && s[0:len(prefix)] == prefix`. -/
def HasPrefix (s pre : GoString) : Bool :=
  decide (pre.length ≤ s.length) && (s.take pre.length == pre)

/-- A Go `map[string]string`: `nil`, or a table of entries (the first entry
of a key is the one a lookup finds). -/
inductive GoMap where
  | nil
  | entries (kvs : List (GoString × GoString))

/-- The lookup `v, ok := m[key]`: `some v` when `ok`, `none` otherwise; a
lookup in a `nil` map finds nothing. -/
def GoMap.get (m : GoMap) (key : GoString) : Option GoString :=
  match m with
  | .nil => none
  | .entries kvs => kvs.lookup key

/-- One digit of `strconv.FormatUint`: `0`..`9`, then `a`..`z`. -/
def digitByte (d : Nat) : UInt8 :=
  if d < 10 then (48 + d).toUInt8 else (87 + d).toUInt8

/-- The digit loop of `strconv.FormatUint`: writes the digits of `i` from the
least significant one, in front of `acc`. -/
def formatDigits (base : Nat) : Nat → Nat → GoString → GoString
  | 0, _, acc => acc
  | fuel + 1, i, acc =>
    if i < base then digitByte i :: acc
    else formatDigits base fuel (i / base) (digitByte (i % base) :: acc)

/-- Library `strconv.FormatUint(i, base)`. -/
def FormatUint (i : Nat) (base : Nat) : GoString :=
  formatDigits base (i + 1) i []

/-- Library `strconv.FormatBool(b)`. -/
def FormatBool (b : Bool) : GoString :=
  if b then utf8 "true" else utf8 "false"

/-! ## Package `types` -/

/-- The string constants of package `types` used by the access log. -/
structure Types where
  LogStartTime : GoString
  LogRequestReceivedDuration : GoString
  LogResponseReceivedDuration : GoString
  LogBytesSent : GoString
  LogBytesReceived : GoString
  LogProtocol : GoString
  LogResponseCode : GoString
  LogDuration : GoString
  LogResponseFlag : GoString
  LogUpstreamLocalAddress : GoString
  LogDownstreamLocalAddress : GoString
  LogDownstreamRemoteAddress : GoString
  LogUpstreamHostSelectedGetter : GoString
  ReqHeaderPrefix : GoString
  RespHeaderPrefix : GoString
  DefaultAccessLogFormat : GoString

/-- A `time.Time`, observed through its `String()` method. -/
structure Time where
  String : GoString

/-- A `time.Duration`, observed through its `String()` method. -/
structure Duration where
  String : GoString

/-- A non-nil `net.Addr`, observed through its `String()` method. -/
structure Addr where
  String : GoString

/-- A non-nil `types.HostInfo`, observed through its `Hostname()` method. -/
structure HostInfo where
  Hostname : GoString

/-- The argument type of `GetResponseFlag`. -/
abbrev ResponseFlag := Nat

/-- A `types.RequestInfo`: what each method of the interface returns. The
address and host accessors return `none` for a nil interface value. -/
structure RequestInfo where
  StartTime : Time
  RequestReceivedDuration : Duration
  ResponseReceivedDuration : Duration
  BytesSent : Nat
  BytesSent_lt : BytesSent < 2 ^ 64
  BytesReceived : Nat
  BytesReceived_lt : BytesReceived < 2 ^ 64
  Protocol : GoString
  ResponseCode : Nat
  ResponseCode_lt : ResponseCode < 2 ^ 32
  Duration : Duration
  GetResponseFlag : ResponseFlag → Bool
  UpstreamLocalAddress : Option Addr
  DownstreamLocalAddress : Option Addr
  DownstreamRemoteAddress : Option Addr
  UpstreamHost : Option HostInfo

/-- A non-nil `types.AccessLogFilter`: its `Decide` method. -/
structure AccessLogFilter where
  Decide : GoMap → RequestInfo → Bool

/-! ## Field extractors -/

def StartTimeGetter (info : RequestInfo) : GoString :=
  info.StartTime.String

def ReceivedDurationGetter (info : RequestInfo) : GoString :=
  info.RequestReceivedDuration.String

def ResponseReceivedDurationGetter (info : RequestInfo) : GoString :=
  info.ResponseReceivedDuration.String

def BytesSentGetter (info : RequestInfo) : GoString :=
  FormatUint info.BytesSent 10

def BytesReceivedGetter (info : RequestInfo) : GoString :=
  FormatUint info.BytesReceived 10

def ProtocolGetter (info : RequestInfo) : GoString :=
  info.Protocol

def ResponseCodeGetter (info : RequestInfo) : GoString :=
  FormatUint (info.ResponseCode % 2 ^ 64) 10

def DurationGetter (info : RequestInfo) : GoString :=
  info.Duration.String

def GetResponseFlagGetter (info : RequestInfo) : GoString :=
  FormatBool (info.GetResponseFlag 0)

def UpstreamLocalAddressGetter (info : RequestInfo) : GoString :=
  match info.UpstreamLocalAddress with
  | some a => a.String
  | none => utf8 "nil"

def DownstreamLocalAddressGetter (info : RequestInfo) : GoString :=
  match info.DownstreamLocalAddress with
  | some a => a.String
  | none => utf8 "nil"

def DownstreamRemoteAddressGetter (info : RequestInfo) : GoString :=
  match info.DownstreamRemoteAddress with
  | some a => a.String
  | none => utf8 "nil"

def UpstreamHostSelectedGetter (info : RequestInfo) : GoString :=
  match info.UpstreamHost with
  | some h => h.Hostname
  | none => utf8 "nil"

/-- The table filled by `init`: the entries of the map literal, in the order
they are written. -/
def RequestInfoFuncMap (T : Types) : List (GoString × (RequestInfo → GoString)) :=
  [ (T.LogStartTime, StartTimeGetter),
    (T.LogRequestReceivedDuration, ReceivedDurationGetter),
    (T.LogResponseReceivedDuration, ResponseReceivedDurationGetter),
    (T.LogBytesSent, BytesSentGetter),
    (T.LogBytesReceived, BytesReceivedGetter),
    (T.LogProtocol, ProtocolGetter),
    (T.LogResponseCode, ResponseCodeGetter),
    (T.LogDuration, DurationGetter),
    (T.LogResponseFlag, GetResponseFlagGetter),
    (T.LogUpstreamLocalAddress, UpstreamLocalAddressGetter),
    (T.LogDownstreamLocalAddress, DownstreamLocalAddressGetter),
    (T.LogDownstreamRemoteAddress, DownstreamRemoteAddressGetter),
    (T.LogUpstreamHostSelectedGetter, UpstreamHostSelectedGetter) ]

/-! ## Line formatters -/

structure simpleRequestInfoFormatter where
  reqInfoFormat : List GoString

structure simpleReqHeadersFormatter where
  reqHeaderFormat : List GoString

structure simpleRespHeadersFormatter where
  respHeaderFormat : List GoString

def simpleRequestInfoFormatter.Format (T : Types) (f : simpleRequestInfoFormatter)
    (_reqHeaders _respHeaders : GoMap) (requestInfo : RequestInfo) : GoString :=
  if f.reqInfoFormat.isEmpty then
    []
  else
    f.reqInfoFormat.foldl
      (fun format key =>
        match (RequestInfoFuncMap T).lookup key with
        | some vFunc => format ++ vFunc requestInfo ++ [space]
        | none => format)
      []

def simpleReqHeadersFormatter.Format (T : Types) (f : simpleReqHeadersFormatter)
    (reqHeaders _respHeaders : GoMap) (_requestInfo : RequestInfo) : GoString :=
  if f.reqHeaderFormat.isEmpty then
    []
  else
    f.reqHeaderFormat.foldl
      (fun format key =>
        match reqHeaders.get key with
        | some v => format ++ T.ReqHeaderPrefix ++ v ++ [space]
        | none => format)
      []

def simpleRespHeadersFormatter.Format (T : Types) (f : simpleRespHeadersFormatter)
    (_reqHeaders respHeaders : GoMap) (_requestInfo : RequestInfo) : GoString :=
  if f.respHeaderFormat.isEmpty then
    []
  else
    f.respHeaderFormat.foldl
      (fun format key =>
        match respHeaders.get key with
        | some v => format ++ T.RespHeaderPrefix ++ v ++ [space]
        | none => format)
      []

/-- The implementations of `types.AccessLogFormatter` that a composite
formatter holds. -/
inductive AccessLogFormatter where
  | reqInfo (f : simpleRequestInfoFormatter)
  | reqHeaders (f : simpleReqHeadersFormatter)
  | respHeaders (f : simpleRespHeadersFormatter)

/-- The interface call `formatter.Format(...)`. -/
def AccessLogFormatter.Format (T : Types) (formatter : AccessLogFormatter)
    (reqHeaders respHeaders : GoMap) (requestInfo : RequestInfo) : GoString :=
  match formatter with
  | .reqInfo f => f.Format T reqHeaders respHeaders requestInfo
  | .reqHeaders f => f.Format T reqHeaders respHeaders requestInfo
  | .respHeaders f => f.Format T reqHeaders respHeaders requestInfo

structure accesslogformatter where
  formatters : List AccessLogFormatter

def accesslogformatter.Format (T : Types) (f : accesslogformatter)
    (reqHeaders respHeaders : GoMap) (requestInfo : RequestInfo) :
    Except GoPanic GoString :=
  let log := f.formatters.foldl
    (fun log formatter => log ++ formatter.Format T reqHeaders respHeaders requestInfo) []
  if log.length > 0 then
    sliceStr log 0 ((log.length : Int) - 1)
  else
    .ok log

/-! ## Format compiler -/

/-- The classification loop of `formatToFormatter`: one step appends the
token to the request-header, response-header or request-info array. -/
def classify (T : Types) (acc : List GoString × List GoString × List GoString)
    (s : GoString) : List GoString × List GoString × List GoString :=
  if HasPrefix s T.ReqHeaderPrefix then
    (acc.1, acc.2.1 ++ [s], acc.2.2)
  else if HasPrefix s T.RespHeaderPrefix then
    (acc.1, acc.2.1, acc.2.2 ++ [s])
  else
    (acc.1 ++ [s], acc.2.1, acc.2.2)

def formatToFormatter (T : Types) (format : GoString) :
    Except GoPanic (List AccessLogFormatter) := do
  let strArray := Split format space
  -- delete %
  let strArray ← strArray.mapM (fun s => sliceStr s 1 ((s.length : Int) - 1))
  -- classify keys
  let arrays := strArray.foldl (classify T) ([], [], [])
  let reqInfoArray := arrays.1
  -- delete REQ.
  let reqHeaderArray ←
    (if arrays.2.1.isEmpty then pure arrays.2.1
     else arrays.2.1.mapM (fun s => sliceStr s T.ReqHeaderPrefix.length s.length))
  -- delete RESP.
  let respHeaderArray ←
    (if arrays.2.2.isEmpty then pure arrays.2.2
     else arrays.2.2.mapM (fun s => sliceStr s T.RespHeaderPrefix.length s.length))
  return [ .reqInfo ⟨reqInfoArray⟩, .reqHeaders ⟨reqHeaderArray⟩,
           .respHeaders ⟨respHeaderArray⟩ ]

def NewAccessLogFormatter (T : Types) (format : GoString) :
    Except GoPanic accesslogformatter := do
  let format := if format = [] then T.DefaultAccessLogFormat else format
  let formatters ← formatToFormatter T format
  return ⟨formatters⟩

/-! ## Access log -/

/-- Modelled from the spec: the `Logger` of this package is not in
`accesslog.go`; the spec describes it as an append-only sink with
`appendLine(text)`. A logger is the list of lines written to it so far. -/
structure Logger where
  lines : List GoString

/-- Modelled from the spec: `Println` appends one line to the sink. -/
def Logger.Println (l : Logger) (line : GoString) : Logger :=
  ⟨l.lines ++ [line]⟩

structure accesslog where
  output : GoString
  filter : Option AccessLogFilter
  formatter : accesslogformatter
  logger : Logger

/-- The method `Log`; the result is the access log afterwards, its logger
holding the lines written. -/
def accesslog.Log (T : Types) (l : accesslog) (reqHeaders respHeaders : GoMap)
    (requestInfo : RequestInfo) : Except GoPanic accesslog :=
  let rejected : Bool :=
    match l.filter with
    | some filter => !filter.Decide reqHeaders requestInfo
    | none => false
  if rejected then
    .ok l
  else do
    let line ← l.formatter.Format T reqHeaders respHeaders requestInfo
    return { l with logger := l.logger.Println line }

/-- A Go `error` value. -/
structure GoError where
  msg : GoString

/-- The function `NewAccessLog`; the result is the pair it returns.

Modelled from the spec: `GetLoggerInstance` is not in `accesslog.go`; the spec
describes it as `acquire(target, mode) -> Sink | error`, and it is taken as
the argument `GetLoggerInstance`. -/
def NewAccessLog (T : Types)
    (GetLoggerInstance : GoString → Nat → Except GoError Logger)
    (output : GoString) (filter : Option AccessLogFilter) (format : GoString) :
    Except GoPanic (Option accesslog × Option GoError) :=
  match GetLoggerInstance output 0 with
  | .error err => .ok (none, some err)
  | .ok logger => do
    let formatter ← NewAccessLogFormatter T format
    return (some ⟨output, filter, formatter, logger⟩, none)

/-! ## Vocabulary of the statements -/

/-- The raw tokens of a format string. -/
def tokens (format : GoString) : List GoString := Split format space

/-- A token without its first and its last byte. -/
def strip (t : GoString) : GoString := (t.drop 1).take (t.length - 2)

/-- The stripped tokens of a format string, in source order. -/
def stripped (format : GoString) : List GoString := (tokens format).map strip

/-- A stripped token that starts with the request-header prefix. -/
def isReqHeaderKey (T : Types) (s : GoString) : Bool :=
  HasPrefix s T.ReqHeaderPrefix

/-- A stripped token that does not start with the request-header prefix but
starts with the response-header prefix. -/
def isRespHeaderKey (T : Types) (s : GoString) : Bool :=
  !HasPrefix s T.ReqHeaderPrefix && HasPrefix s T.RespHeaderPrefix

/-- A stripped token that starts with neither prefix. -/
def isPlainKey (T : Types) (s : GoString) : Bool :=
  !HasPrefix s T.ReqHeaderPrefix && !HasPrefix s T.RespHeaderPrefix

/-- The plain stripped tokens of a format, in source order. -/
def plainKeys (T : Types) (format : GoString) : List GoString :=
  (stripped format).filter (isPlainKey T)

/-- The request-header names of a format, in source order. -/
def reqHeaderKeys (T : Types) (format : GoString) : List GoString :=
  ((stripped format).filter (isReqHeaderKey T)).map
    (fun s => s.drop T.ReqHeaderPrefix.length)

/-- The response-header names of a format, in source order. -/
def respHeaderKeys (T : Types) (format : GoString) : List GoString :=
  ((stripped format).filter (isRespHeaderKey T)).map
    (fun s => s.drop T.RespHeaderPrefix.length)

/-- The texts of the request-info fields: the extractor results of the names
found in `RequestInfoFuncMap`, in the order of the names. -/
def infoFields (T : Types) (keys : List GoString) (info : RequestInfo) :
    List GoString :=
  keys.filterMap (fun k => ((RequestInfoFuncMap T).lookup k).map (fun g => g info))

/-- The texts of the header fields: the given prefix followed by the value,
for the names that are keys of the map, in the order of the names. -/
def headerFields (pre : GoString) (m : GoMap) (keys : List GoString) :
    List GoString :=
  keys.filterMap (fun k => (m.get k).map (fun v => pre ++ v))

/-- All the field texts of a line, in output order. -/
def lineFields (T : Types) (format : GoString) (reqHeaders respHeaders : GoMap)
    (info : RequestInfo) : List GoString :=
  infoFields T (plainKeys T format) info
    ++ headerFields T.ReqHeaderPrefix reqHeaders (reqHeaderKeys T format)
    ++ headerFields T.RespHeaderPrefix respHeaders (respHeaderKeys T format)

/-- Compile a format string with `NewAccessLogFormatter`, then call `Format`
on the formatter it built. -/
def render (T : Types) (format : GoString) (reqHeaders respHeaders : GoMap)
    (info : RequestInfo) : Except GoPanic GoString := do
  let f ← NewAccessLogFormatter T format
  f.Format T reqHeaders respHeaders info

/-- Every raw token of the format has at least two bytes. -/
def wellFormed (format : GoString) : Prop :=
  ∀ t ∈ tokens format, 2 ≤ t.length

instance (format : GoString) : Decidable (wellFormed format) :=
  inferInstanceAs (Decidable (∀ t ∈ tokens format, 2 ≤ t.length))

/-- Constants for the examples: the prefixes `REQ.` and `RESP.` and the
start-time name `START_TIME`; the other names follow the field table. -/
def exampleTypes : Types where
  LogStartTime := utf8 "START_TIME"
  LogRequestReceivedDuration := utf8 "REQUEST_RECEIVED_DURATION"
  LogResponseReceivedDuration := utf8 "RESPONSE_RECEIVED_DURATION"
  LogBytesSent := utf8 "BYTES_SENT"
  LogBytesReceived := utf8 "BYTES_RECEIVED"
  LogProtocol := utf8 "PROTOCOL"
  LogResponseCode := utf8 "RESPONSE_CODE"
  LogDuration := utf8 "DURATION"
  LogResponseFlag := utf8 "RESPONSE_FLAG"
  LogUpstreamLocalAddress := utf8 "UPSTREAM_LOCAL_ADDRESS"
  LogDownstreamLocalAddress := utf8 "DOWNSTREAM_LOCAL_ADDRESS"
  LogDownstreamRemoteAddress := utf8 "DOWNSTREAM_REMOTE_ADDRESS"
  LogUpstreamHostSelectedGetter := utf8 "UPSTREAM_HOST"
  ReqHeaderPrefix := utf8 "REQ."
  RespHeaderPrefix := utf8 "RESP."
  DefaultAccessLogFormat := utf8 "%START_TIME% %PROTOCOL% %RESPONSE_CODE%"

/-- A request info for the examples: start time rendered as `T0`. -/
def exampleInfo : RequestInfo where
  StartTime := ⟨utf8 "T0"⟩
  RequestReceivedDuration := ⟨utf8 "1ms"⟩
  ResponseReceivedDuration := ⟨utf8 "2ms"⟩
  BytesSent := 10
  BytesSent_lt := by decide
  BytesReceived := 20
  BytesReceived_lt := by decide
  Protocol := utf8 "Http1"
  ResponseCode := 200
  ResponseCode_lt := by decide
  Duration := ⟨utf8 "3ms"⟩
  GetResponseFlag := fun _ => false
  UpstreamLocalAddress := none
  DownstreamLocalAddress := none
  DownstreamRemoteAddress := none
  UpstreamHost := none

/-- A byte `0`..`9`. -/
def isDecimalDigit (b : UInt8) : Bool :=
  decide (48 ≤ b.toNat ∧ b.toNat ≤ 57)

/-- The number that a text of decimal digits denotes, read from the left. -/
def readDecimal (s : GoString) : Nat :=
  s.foldl (fun n b => 10 * n + (b.toNat - 48)) 0

/-- Two tokens that differ at most in their first and in their last byte. -/
def sameButDelimiters (t1 t2 : GoString) : Prop :=
  ∃ a b c d m, t1 = a :: (m ++ [b]) ∧ t2 = c :: (m ++ [d])

/-- The text `s` is the unsigned decimal text of `n`: digits only, not
empty, no leading zero unless the text is `0`, and it reads back as `n`. -/
def isDecimalOf (s : GoString) (n : Nat) : Prop :=
  s ≠ [] ∧ (∀ b ∈ s, isDecimalDigit b = true) ∧ (s.head? = some 48 → s = [48])
    ∧ readDecimal s = n

/-! ## Auxiliary lemmas -/

theorem sliceStr_strip (s : GoString) (h : 2 ≤ s.length) :
    sliceStr s 1 ((s.length : Int) - 1) = .ok (strip s) := by
  unfold sliceStr strip
  have h1 : (0 : Int) ≤ 1 ∧ (1 : Int) ≤ (s.length : Int) - 1 ∧
      (s.length : Int) - 1 ≤ (s.length : Int) := by omega
  rw [if_pos h1]
  have h2 : ((s.length : Int) - 1 - 1).toNat = s.length - 2 := by omega
  simp [h2]

theorem sliceStr_short (s : GoString) (h : s.length < 2) :
    sliceStr s 1 ((s.length : Int) - 1) = .error .sliceBoundsOutOfRange := by
  unfold sliceStr
  have h1 : ¬ ((0 : Int) ≤ 1 ∧ (1 : Int) ≤ (s.length : Int) - 1 ∧
      (s.length : Int) - 1 ≤ (s.length : Int)) := by omega
  rw [if_neg h1]

theorem sliceStr_from (s : GoString) (n : Nat) (h : n ≤ s.length) :
    sliceStr s n s.length = .ok (s.drop n) := by
  unfold sliceStr
  have h1 : (0 : Int) ≤ (n : Int) ∧ (n : Int) ≤ (s.length : Int) ∧
      (s.length : Int) ≤ (s.length : Int) := by omega
  rw [if_pos h1]
  have h2 : ((s.length : Int) - (n : Int)).toNat = s.length - n := by omega
  simp [h2]

theorem HasPrefix_length (s pre : GoString) (h : HasPrefix s pre = true) :
    pre.length ≤ s.length := by
  unfold HasPrefix at h
  simp at h
  exact h.1

theorem mapM_ok {α β : Type} (f : α → Except GoPanic β) (g : α → β) :
    ∀ l : List α, (∀ x ∈ l, f x = .ok (g x)) → l.mapM f = .ok (l.map g)
  | [], _ => rfl
  | x :: xs, h => by
    have hx := h x (List.mem_cons_self x xs)
    have ih := mapM_ok f g xs (fun y hy => h y (List.mem_cons_of_mem x hy))
    rw [List.mapM_cons, hx, ih]
    rfl

theorem mapM_error {α β : Type} (f : α → Except GoPanic β) (e : GoPanic) :
    ∀ l : List α, (∀ x ∈ l, f x = .error e ∨ ∃ y, f x = .ok y) →
      (∃ x ∈ l, f x = .error e) → l.mapM f = .error e
  | [], _, h => by
    obtain ⟨x, hx, _⟩ := h
    cases hx
  | x :: xs, hall, h => by
    rw [List.mapM_cons]
    rcases hall x (List.mem_cons_self x xs) with hx | ⟨y, hy⟩
    · rw [hx]; rfl
    · rw [hy]
      have hex : ∃ z ∈ xs, f z = .error e := by
        obtain ⟨z, hz, hze⟩ := h
        rcases List.mem_cons.mp hz with rfl | hz2
        · rw [hy] at hze; cases hze
        · exact ⟨z, hz2, hze⟩
      have ih := mapM_error f e xs (fun z hz => hall z (List.mem_cons_of_mem x hz)) hex
      rw [ih]
      rfl

theorem guarded_mapM_ok {α : Type} (f : α → Except GoPanic α) (g : α → α)
    (l : List α) (h : ∀ x ∈ l, f x = .ok (g x)) :
    (if l.isEmpty then pure l else l.mapM f) = (.ok (l.map g) : Except GoPanic (List α)) := by
  by_cases he : l.isEmpty = true
  · rw [if_pos he]
    have : l = [] := List.isEmpty_iff.mp he
    subst this
    rfl
  · rw [if_neg he]
    exact mapM_ok f g l h

theorem foldl_classify (T : Types) :
    ∀ (l a b c : List GoString),
      l.foldl (classify T) (a, b, c) =
        (a ++ l.filter (isPlainKey T), b ++ l.filter (isReqHeaderKey T),
          c ++ l.filter (isRespHeaderKey T))
  | [], a, b, c => by simp
  | s :: l, a, b, c => by
    rw [List.foldl_cons]
    by_cases h1 : HasPrefix s T.ReqHeaderPrefix = true
    · have hc : classify T (a, b, c) s = (a, b ++ [s], c) := by simp [classify, h1]
      rw [hc, foldl_classify T l]
      simp [h1, isPlainKey, isReqHeaderKey, isRespHeaderKey]
    · by_cases h2 : HasPrefix s T.RespHeaderPrefix = true
      · have hc : classify T (a, b, c) s = (a, b, c ++ [s]) := by
          simp [classify, h1, h2]
        rw [hc, foldl_classify T l]
        simp [h1, h2, isPlainKey, isReqHeaderKey, isRespHeaderKey]
      · have hc : classify T (a, b, c) s = (a ++ [s], b, c) := by
          simp [classify, h1, h2]
        rw [hc, foldl_classify T l]
        simp [h1, h2, isPlainKey, isReqHeaderKey, isRespHeaderKey]

theorem Split_nil : Split [] space = [[]] := rfl

theorem wellFormed_ne_nil (format : GoString) (h : wellFormed format) :
    format ≠ [] := by
  intro h0
  subst h0
  have := h [] (by simp [tokens, Split_nil])
  simp at this

theorem formatToFormatter_ok (T : Types) (format : GoString)
    (h : wellFormed format) :
    formatToFormatter T format =
      .ok [ .reqInfo ⟨plainKeys T format⟩, .reqHeaders ⟨reqHeaderKeys T format⟩,
            .respHeaders ⟨respHeaderKeys T format⟩ ] := by
  have e1 : (Split format space).mapM (fun s => sliceStr s 1 ((s.length : Int) - 1))
      = .ok (stripped format) :=
    mapM_ok _ strip _ (fun x hx => sliceStr_strip x (h x hx))
  have e2 : (if ((stripped format).filter (isReqHeaderKey T)).isEmpty then
        pure ((stripped format).filter (isReqHeaderKey T))
      else ((stripped format).filter (isReqHeaderKey T)).mapM
        (fun s => sliceStr s T.ReqHeaderPrefix.length s.length))
      = (.ok (reqHeaderKeys T format) : Except GoPanic (List GoString)) := by
    unfold reqHeaderKeys
    refine guarded_mapM_ok (fun s => sliceStr s T.ReqHeaderPrefix.length s.length)
      (fun s => s.drop T.ReqHeaderPrefix.length) _ (fun x hx => ?_)
    have hx2 := (List.mem_filter.mp hx).2
    exact sliceStr_from x _ (HasPrefix_length x _ hx2)
  have e3 : (if ((stripped format).filter (isRespHeaderKey T)).isEmpty then
        pure ((stripped format).filter (isRespHeaderKey T))
      else ((stripped format).filter (isRespHeaderKey T)).mapM
        (fun s => sliceStr s T.RespHeaderPrefix.length s.length))
      = (.ok (respHeaderKeys T format) : Except GoPanic (List GoString)) := by
    unfold respHeaderKeys
    refine guarded_mapM_ok (fun s => sliceStr s T.RespHeaderPrefix.length s.length)
      (fun s => s.drop T.RespHeaderPrefix.length) _ (fun x hx => ?_)
    have hx2 := (List.mem_filter.mp hx).2
    simp only [isRespHeaderKey, Bool.and_eq_true] at hx2
    exact sliceStr_from x _ (HasPrefix_length x _ hx2.2)
  unfold formatToFormatter
  simp only [e1, bind, Except.bind, foldl_classify, List.nil_append, e2, e3]
  rfl

theorem NewAccessLogFormatter_ok (T : Types) (format : GoString)
    (h : wellFormed format) :
    NewAccessLogFormatter T format =
      .ok ⟨[ .reqInfo ⟨plainKeys T format⟩, .reqHeaders ⟨reqHeaderKeys T format⟩,
             .respHeaders ⟨respHeaderKeys T format⟩ ]⟩ := by
  unfold NewAccessLogFormatter
  simp only [if_neg (wellFormed_ne_nil format h), formatToFormatter_ok T format h,
    bind, Except.bind]
  rfl

/-- A loop that appends one piece per element builds the concatenation of
the pieces. -/
theorem foldl_pieces {κ : Type} (piece : κ → GoString)
    (step : GoString → κ → GoString)
    (hstep : ∀ acc k, step acc k = acc ++ piece k) :
    ∀ (l : List κ) (init : GoString),
      l.foldl step init = init ++ (l.map piece).flatten
  | [], init => by simp
  | k :: l, init => by
    rw [List.foldl_cons, hstep, foldl_pieces piece step hstep l]
    simp

theorem flatten_pieces {κ : Type} (opt : κ → Option GoString) :
    ∀ l : List κ,
      (l.map (fun k => match opt k with
        | some v => v ++ [space]
        | none => [])).flatten
      = ((l.filterMap opt).map (fun v => v ++ [space])).flatten
  | [] => rfl
  | k :: l => by
    cases hk : opt k <;> simp [List.filterMap_cons, hk, flatten_pieces opt l]

/-- The fragment of the request-info formatter: each resolved field followed
by one space. -/
theorem simpleRequestInfoFormatter_Format_eq (T : Types)
    (f : simpleRequestInfoFormatter) (rh rs : GoMap) (info : RequestInfo) :
    f.Format T rh rs info
      = ((infoFields T f.reqInfoFormat info).map (fun v => v ++ [space])).flatten := by
  unfold simpleRequestInfoFormatter.Format infoFields
  rw [← flatten_pieces]
  have hfold := foldl_pieces
    (fun k => match ((RequestInfoFuncMap T).lookup k).map (fun g => g info) with
      | some v => v ++ [space]
      | none => [])
    (fun format key =>
      match (RequestInfoFuncMap T).lookup key with
      | some vFunc => format ++ vFunc info ++ [space]
      | none => format)
    (fun acc k => by cases h : (RequestInfoFuncMap T).lookup k <;> simp [h])
    f.reqInfoFormat []
  by_cases he : f.reqInfoFormat.isEmpty = true
  · rw [if_pos he]
    have : f.reqInfoFormat = [] := List.isEmpty_iff.mp he
    simp [this]
  · rw [if_neg he, hfold]
    simp

theorem simpleReqHeadersFormatter_Format_eq (T : Types)
    (f : simpleReqHeadersFormatter) (rh rs : GoMap) (info : RequestInfo) :
    f.Format T rh rs info
      = ((headerFields T.ReqHeaderPrefix rh f.reqHeaderFormat).map
          (fun v => v ++ [space])).flatten := by
  unfold simpleReqHeadersFormatter.Format headerFields
  rw [← flatten_pieces]
  have hfold := foldl_pieces
    (fun k => match (rh.get k).map (fun v => T.ReqHeaderPrefix ++ v) with
      | some v => v ++ [space]
      | none => [])
    (fun format key =>
      match rh.get key with
      | some v => format ++ T.ReqHeaderPrefix ++ v ++ [space]
      | none => format)
    (fun acc k => by cases h : rh.get k <;> simp [h])
    f.reqHeaderFormat []
  by_cases he : f.reqHeaderFormat.isEmpty = true
  · rw [if_pos he]
    have : f.reqHeaderFormat = [] := List.isEmpty_iff.mp he
    simp [this]
  · rw [if_neg he, hfold]
    simp

theorem simpleRespHeadersFormatter_Format_eq (T : Types)
    (f : simpleRespHeadersFormatter) (rh rs : GoMap) (info : RequestInfo) :
    f.Format T rh rs info
      = ((headerFields T.RespHeaderPrefix rs f.respHeaderFormat).map
          (fun v => v ++ [space])).flatten := by
  unfold simpleRespHeadersFormatter.Format headerFields
  rw [← flatten_pieces]
  have hfold := foldl_pieces
    (fun k => match (rs.get k).map (fun v => T.RespHeaderPrefix ++ v) with
      | some v => v ++ [space]
      | none => [])
    (fun format key =>
      match rs.get key with
      | some v => format ++ T.RespHeaderPrefix ++ v ++ [space]
      | none => format)
    (fun acc k => by cases h : rs.get k <;> simp [h])
    f.respHeaderFormat []
  by_cases he : f.respHeaderFormat.isEmpty = true
  · rw [if_pos he]
    have : f.respHeaderFormat = [] := List.isEmpty_iff.mp he
    simp [this]
  · rw [if_neg he, hfold]
    simp

theorem flatten_spaced_eq_intercalate :
    ∀ L : List GoString, L ≠ [] →
      (L.map (fun v => v ++ [space])).flatten = [space].intercalate L ++ [space]
  | [], h => absurd rfl h
  | [x], _ => by simp [List.intercalate]
  | x :: y :: L, _ => by
    have ih := flatten_spaced_eq_intercalate (y :: L) (List.cons_ne_nil y L)
    simp only [List.map_cons, List.flatten_cons] at ih ⊢
    rw [ih]
    simp [List.intercalate, List.intersperse]

theorem dropLast_flatten_spaced (L : List GoString) :
    ((L.map (fun v => v ++ [space])).flatten).dropLast = [space].intercalate L := by
  by_cases h : L = []
  · subst h; rfl
  · rw [flatten_spaced_eq_intercalate L h, List.dropLast_concat]

theorem sliceStr_dropLast (s : GoString) (h : s.length > 0) :
    sliceStr s 0 ((s.length : Int) - 1) = .ok s.dropLast := by
  unfold sliceStr
  have h1 : (0 : Int) ≤ 0 ∧ (0 : Int) ≤ (s.length : Int) - 1 ∧
      (s.length : Int) - 1 ≤ (s.length : Int) := by omega
  rw [if_pos h1]
  have h2 : ((s.length : Int) - 1 - 0).toNat = s.length - 1 := by omega
  simp [h2, List.dropLast_eq_take]

/-- The composite formatter never panics: it returns the concatenation of
the fragments without its last byte. -/
theorem accesslogformatter_Format_eq (T : Types) (f : accesslogformatter)
    (rh rs : GoMap) (info : RequestInfo) :
    f.Format T rh rs info
      = .ok ((f.formatters.map (fun x => x.Format T rh rs info)).flatten).dropLast := by
  unfold accesslogformatter.Format
  have hfold := foldl_pieces (fun x : AccessLogFormatter => x.Format T rh rs info)
    (fun log formatter => log ++ formatter.Format T rh rs info)
    (fun _ _ => rfl) f.formatters []
  simp only [hfold, List.nil_append]
  by_cases hl : ((f.formatters.map (fun x => x.Format T rh rs info)).flatten).length > 0
  · rw [if_pos hl, sliceStr_dropLast _ hl]
  · rw [if_neg hl]
    have : (f.formatters.map (fun x => x.Format T rh rs info)).flatten = [] :=
      List.length_eq_zero.mp (by omega)
    rw [this]
    rfl

/-- The line of a compiled format: the fields of the three lists, joined by
single spaces. -/
theorem Format_three (T : Types) (p q r : List GoString)
    (rh rs : GoMap) (info : RequestInfo) :
    (accesslogformatter.mk [ .reqInfo ⟨p⟩, .reqHeaders ⟨q⟩, .respHeaders ⟨r⟩ ]).Format
        T rh rs info
      = .ok ([space].intercalate
          (infoFields T p info ++ headerFields T.ReqHeaderPrefix rh q
            ++ headerFields T.RespHeaderPrefix rs r)) := by
  rw [accesslogformatter_Format_eq, ← dropLast_flatten_spaced]
  simp [AccessLogFormatter.Format, simpleRequestInfoFormatter_Format_eq,
    simpleReqHeadersFormatter_Format_eq, simpleRespHeadersFormatter_Format_eq]

theorem render_ok (T : Types) (format : GoString) (h : wellFormed format)
    (rh rs : GoMap) (info : RequestInfo) :
    render T format rh rs info
      = .ok ([space].intercalate (lineFields T format rh rs info)) := by
  unfold render
  rw [NewAccessLogFormatter_ok T format h]
  exact Format_three T _ _ _ rh rs info

theorem HasPrefix_append_drop (s pre : GoString) (h : HasPrefix s pre = true) :
    pre ++ s.drop pre.length = s := by
  unfold HasPrefix at h
  simp only [Bool.and_eq_true, decide_eq_true_eq, beq_iff_eq] at h
  have := List.take_append_drop pre.length s
  rw [h.2] at this
  exact this

theorem length_filter_three (T : Types) :
    ∀ l : List GoString,
      (l.filter (isPlainKey T)).length + (l.filter (isReqHeaderKey T)).length
        + (l.filter (isRespHeaderKey T)).length = l.length
  | [] => rfl
  | s :: l => by
    have ih := length_filter_three T l
    by_cases h1 : HasPrefix s T.ReqHeaderPrefix = true <;>
      by_cases h2 : HasPrefix s T.RespHeaderPrefix = true <;>
      simp [List.filter_cons, isPlainKey, isReqHeaderKey, isRespHeaderKey, h1, h2] <;>
      omega

theorem splitOnP_no_sep {α : Type} (p : α → Bool) :
    ∀ (xs : List α), ∀ t ∈ xs.splitOnP p, ∀ x ∈ t, ¬ p x = true
  | [], t, ht, x, hx => by
    rw [List.splitOnP_nil] at ht
    have : t = [] := by simpa using ht
    subst this
    cases hx
  | y :: ys, t, ht, x, hx => by
    have ih := splitOnP_no_sep p ys
    rw [List.splitOnP_cons] at ht
    by_cases hy : p y = true
    · rw [if_pos hy] at ht
      rcases List.mem_cons.mp ht with rfl | ht2
      · cases hx
      · exact ih t ht2 x hx
    · rw [if_neg hy] at ht
      cases hs : ys.splitOnP p with
      | nil => exact absurd hs (List.splitOnP_ne_nil p ys)
      | cons hd tl =>
        rw [hs] at ht ih
        simp only [List.modifyHead_cons, List.mem_cons] at ht
        rcases ht with rfl | ht2
        · rcases List.mem_cons.mp hx with rfl | hx2
          · exact hy
          · exact ih hd (List.mem_cons_self hd tl) x hx2
        · exact ih t (List.mem_cons_of_mem hd ht2) x hx

theorem tokens_no_space (format : GoString) :
    ∀ t ∈ tokens format, space ∉ t := by
  intro t ht hsp
  have := splitOnP_no_sep (fun x => x == space) format t ht space hsp
  simp at this

/-! ## Field order -/

/-- C1: two formats whose tokens all have at least two bytes and which have
the same plain tokens, the same request-header tokens and the same
response-header tokens, each in the same order but interleaved in any way,
render the same line for all headers and request info; that line is the
request-info fields, then the request-header fields, then the
response-header fields, each in source order, joined by single spaces. -/
theorem C1_fixed_field_order (T : Types) (f1 f2 : GoString)
    (h1 : ∀ t ∈ tokens f1, 2 ≤ t.length) (h2 : ∀ t ∈ tokens f2, 2 ≤ t.length)
    (hp : (stripped f1).filter (isPlainKey T) = (stripped f2).filter (isPlainKey T))
    (hq : (stripped f1).filter (isReqHeaderKey T)
      = (stripped f2).filter (isReqHeaderKey T))
    (hr : (stripped f1).filter (isRespHeaderKey T)
      = (stripped f2).filter (isRespHeaderKey T))
    (rh rs : GoMap) (info : RequestInfo) :
    render T f1 rh rs info = render T f2 rh rs info
      ∧ render T f1 rh rs info =
        .ok ([space].intercalate
          (infoFields T (plainKeys T f1) info
            ++ headerFields T.ReqHeaderPrefix rh (reqHeaderKeys T f1)
            ++ headerFields T.RespHeaderPrefix rs (respHeaderKeys T f1))) := by
  have e1 := render_ok T f1 h1 rh rs info
  have e2 := render_ok T f2 h2 rh rs info
  refine ⟨?_, e1⟩
  rw [e1, e2]
  simp only [lineFields, plainKeys, reqHeaderKeys, respHeaderKeys, hp, hq, hr]

theorem C1_fixed_field_order_witness :
    render exampleTypes (utf8 "%RESP.X% %START_TIME% %REQ.Y%")
        (.entries [(utf8 "Y", utf8 "v1")]) (.entries [(utf8 "X", utf8 "v2")]) exampleInfo
      = render exampleTypes (utf8 "%START_TIME% %REQ.Y% %RESP.X%")
        (.entries [(utf8 "Y", utf8 "v1")]) (.entries [(utf8 "X", utf8 "v2")]) exampleInfo :=
  (C1_fixed_field_order exampleTypes (utf8 "%RESP.X% %START_TIME% %REQ.Y%")
    (utf8 "%START_TIME% %REQ.Y% %RESP.X%") (by decide) (by decide) (by decide)
    (by decide) (by decide) (.entries [(utf8 "Y", utf8 "v1")])
    (.entries [(utf8 "X", utf8 "v2")]) exampleInfo).1

/-- C2, as stated, fails: with the prefixes `REQ.` and `RESP.`, the start-time
name `START_TIME`, request header `Y` mapped to `v1`, response header `X`
mapped to `v2` and a start time rendered as `T0`, the format
`%RESP.X% %START_TIME% %REQ.Y%` renders `T0 REQ.v1 RESP.v2`, which is not
`T0 REQ.Y=v1 RESP.X=v2`: a header field is the prefix followed by the value,
without the header name. -/
theorem C2_counterexample :
    render exampleTypes (utf8 "%RESP.X% %START_TIME% %REQ.Y%")
        (.entries [(utf8 "Y", utf8 "v1")]) (.entries [(utf8 "X", utf8 "v2")]) exampleInfo
      = .ok (utf8 "T0 REQ.v1 RESP.v2")
    ∧ utf8 "T0 REQ.v1 RESP.v2" ≠ utf8 "T0 REQ.Y=v1 RESP.X=v2" :=
  ⟨by rfl, by decide⟩

theorem stripped_example :
    stripped (utf8 "%RESP.X% %START_TIME% %REQ.Y%")
      = [utf8 "RESP.X", utf8 "START_TIME", utf8 "REQ.Y"] := by
  decide

/-- C2, amended: with the prefixes `REQ.` and `RESP.` and the start-time name
`START_TIME`, for request headers mapping `Y` to `v1`, response headers
mapping `X` to `v2` and any request info, the format
`%RESP.X% %START_TIME% %REQ.Y%` renders the start-time text, a space, `REQ.`
followed by `v1`, a space, and `RESP.` followed by `v2`. -/
theorem C2_example_line (T : Types) (rh rs : GoMap) (info : RequestInfo)
    (v1 v2 : GoString)
    (hreq : T.ReqHeaderPrefix = utf8 "REQ.") (hresp : T.RespHeaderPrefix = utf8 "RESP.")
    (hstart : T.LogStartTime = utf8 "START_TIME")
    (hY : rh.get (utf8 "Y") = some v1) (hX : rs.get (utf8 "X") = some v2) :
    render T (utf8 "%RESP.X% %START_TIME% %REQ.Y%") rh rs info
      = .ok (info.StartTime.String ++ utf8 " REQ." ++ v1 ++ utf8 " RESP." ++ v2) := by
  rw [render_ok T _ (by decide)]
  have hp : plainKeys T (utf8 "%RESP.X% %START_TIME% %REQ.Y%") = [utf8 "START_TIME"] := by
    unfold plainKeys isPlainKey
    rw [stripped_example, hreq, hresp]
    decide
  have hq : reqHeaderKeys T (utf8 "%RESP.X% %START_TIME% %REQ.Y%") = [utf8 "Y"] := by
    unfold reqHeaderKeys isReqHeaderKey
    rw [stripped_example, hreq]
    decide
  have hr : respHeaderKeys T (utf8 "%RESP.X% %START_TIME% %REQ.Y%") = [utf8 "X"] := by
    unfold respHeaderKeys isRespHeaderKey
    rw [stripped_example, hreq, hresp]
    decide
  have hi : infoFields T [utf8 "START_TIME"] info = [info.StartTime.String] := by
    simp [infoFields, RequestInfoFuncMap, List.lookup, hstart, StartTimeGetter]
  simp only [lineFields, hp, hq, hr, hi, headerFields, List.filterMap_cons, hY, hX,
    Option.map_some', List.filterMap_nil, hreq, hresp]
  have hs1 : utf8 " REQ." = space :: utf8 "REQ." := by decide
  have hs2 : utf8 " RESP." = space :: utf8 "RESP." := by decide
  rw [hs1, hs2]
  simp [List.intercalate, List.intersperse]

theorem C2_example_line_witness :
    render exampleTypes (utf8 "%RESP.X% %START_TIME% %REQ.Y%")
        (.entries [(utf8 "Y", utf8 "v1")]) (.entries [(utf8 "X", utf8 "v2")]) exampleInfo
      = .ok (utf8 "T0" ++ utf8 " REQ." ++ utf8 "v1" ++ utf8 " RESP." ++ utf8 "v2") :=
  C2_example_line exampleTypes (.entries [(utf8 "Y", utf8 "v1")])
    (.entries [(utf8 "X", utf8 "v2")]) exampleInfo (utf8 "v1") (utf8 "v2")
    (by decide) (by decide) (by decide) (by decide) (by decide)

/-! ## The compiler -/

/-- C3: for a format whose tokens all have at least two bytes,
`formatToFormatter` returns the three formatters holding, in source order,
the stripped tokens with neither prefix (unchanged), the stripped tokens with
the request-header prefix (that prefix removed) and the stripped tokens
without the request-header prefix but with the response-header prefix (that
prefix removed); the three lengths add up to the number of tokens. -/
theorem C3_formatToFormatter_partition (T : Types) (format : GoString)
    (h : ∀ t ∈ Split format space, 2 ≤ t.length) :
    formatToFormatter T format =
        .ok [ .reqInfo ⟨(stripped format).filter (isPlainKey T)⟩,
              .reqHeaders ⟨((stripped format).filter (isReqHeaderKey T)).map
                (fun s => s.drop T.ReqHeaderPrefix.length)⟩,
              .respHeaders ⟨((stripped format).filter (isRespHeaderKey T)).map
                (fun s => s.drop T.RespHeaderPrefix.length)⟩ ]
      ∧ (∀ s ∈ (stripped format).filter (isReqHeaderKey T),
          T.ReqHeaderPrefix ++ s.drop T.ReqHeaderPrefix.length = s)
      ∧ (∀ s ∈ (stripped format).filter (isRespHeaderKey T),
          T.RespHeaderPrefix ++ s.drop T.RespHeaderPrefix.length = s)
      ∧ (plainKeys T format).length + (reqHeaderKeys T format).length
          + (respHeaderKeys T format).length = (Split format space).length := by
  refine ⟨formatToFormatter_ok T format h, ?_, ?_, ?_⟩
  · intro s hs
    exact HasPrefix_append_drop s _ (List.mem_filter.mp hs).2
  · intro s hs
    have hs2 := (List.mem_filter.mp hs).2
    simp only [isRespHeaderKey, Bool.and_eq_true] at hs2
    exact HasPrefix_append_drop s _ hs2.2
  · have := length_filter_three T (stripped format)
    simp only [plainKeys, reqHeaderKeys, respHeaderKeys, List.length_map] at this ⊢
    rw [this]
    simp [stripped, tokens]

theorem C3_formatToFormatter_partition_witness :
    (∀ t ∈ Split (utf8 "%RESP.X% %START_TIME% %REQ.Y%") space, 2 ≤ t.length)
      ∧ formatToFormatter exampleTypes (utf8 "%RESP.X% %START_TIME% %REQ.Y%") =
        .ok [ .reqInfo ⟨[utf8 "START_TIME"]⟩, .reqHeaders ⟨[utf8 "Y"]⟩,
              .respHeaders ⟨[utf8 "X"]⟩ ] :=
  ⟨by decide,
    (C3_formatToFormatter_partition exampleTypes
      (utf8 "%RESP.X% %START_TIME% %REQ.Y%") (by decide)).1.trans (by rfl)⟩

/-! ## Malformed formats and totality -/

theorem formatToFormatter_short (T : Types) (format : GoString)
    (h : ∃ t ∈ tokens format, t.length < 2) :
    formatToFormatter T format = .error .sliceBoundsOutOfRange := by
  have e1 : (Split format space).mapM (fun s => sliceStr s 1 ((s.length : Int) - 1))
      = .error .sliceBoundsOutOfRange := by
    refine mapM_error _ _ _ (fun x _ => ?_) ?_
    · by_cases hx : 2 ≤ x.length
      · exact Or.inr ⟨_, sliceStr_strip x hx⟩
      · exact Or.inl (sliceStr_short x (by omega))
    · obtain ⟨t, ht, hlt⟩ := h
      exact ⟨t, ht, sliceStr_short t hlt⟩
  unfold formatToFormatter
  simp only [e1, bind, Except.bind]

/-- C4, as stated, fails: compiling the non-empty format `%a%  %b%`, whose
two consecutive spaces give an empty token, ends in the run-time panic of an
out-of-range slice; no error value is returned. -/
theorem C4_counterexample :
    utf8 "%a%  %b%" ≠ []
      ∧ (∃ t ∈ tokens (utf8 "%a%  %b%"), t.length < 2)
      ∧ NewAccessLogFormatter exampleTypes (utf8 "%a%  %b%")
          = .error .sliceBoundsOutOfRange :=
  ⟨by decide, by decide, by rfl⟩

/-- C4, amended: for every non-empty format that has a token shorter than
two bytes, `NewAccessLogFormatter` builds no formatter: the delimiter strip
panics with a slice out of range. -/
theorem C4_short_token_panics (T : Types) (format : GoString)
    (hne : format ≠ []) (h : ∃ t ∈ tokens format, t.length < 2) :
    NewAccessLogFormatter T format = .error .sliceBoundsOutOfRange := by
  unfold NewAccessLogFormatter
  simp only [if_neg hne, formatToFormatter_short T format h, bind, Except.bind]

theorem C4_short_token_panics_witness :
    NewAccessLogFormatter exampleTypes (utf8 " %a%") = .error .sliceBoundsOutOfRange :=
  C4_short_token_panics exampleTypes (utf8 " %a%") (by decide) (by decide)

/-- C5: for a format whose tokens all have at least two bytes,
`formatToFormatter` returns its three formatters without a slice panic, and
`Format` on the formatter built from them returns a line, without a panic,
for all header maps (the `nil` map included) and every request info. -/
theorem C5_compile_and_render_total (T : Types) (format : GoString)
    (h : ∀ t ∈ tokens format, 2 ≤ t.length) :
    ∃ fs, formatToFormatter T format = .ok fs
      ∧ NewAccessLogFormatter T format = .ok ⟨fs⟩
      ∧ ∀ (rh rs : GoMap) (info : RequestInfo),
          ∃ line, (accesslogformatter.mk fs).Format T rh rs info = .ok line :=
  ⟨_, formatToFormatter_ok T format h, NewAccessLogFormatter_ok T format h,
    fun rh rs info => ⟨_, accesslogformatter_Format_eq T _ rh rs info⟩⟩

theorem C5_compile_and_render_total_witness :
    ∃ fs, formatToFormatter exampleTypes (utf8 "%NO_SUCH_FIELD% %REQ.Y%") = .ok fs
      ∧ NewAccessLogFormatter exampleTypes (utf8 "%NO_SUCH_FIELD% %REQ.Y%") = .ok ⟨fs⟩
      ∧ ∀ (rh rs : GoMap) (info : RequestInfo),
          ∃ line, (accesslogformatter.mk fs).Format exampleTypes rh rs info = .ok line :=
  C5_compile_and_render_total exampleTypes (utf8 "%NO_SUCH_FIELD% %REQ.Y%") (by decide)

/-! ## Tokens that resolve to nothing -/

theorem lineFields_insert (T : Types) (A B : List GoString) (s : GoString)
    (rh rs : GoMap) (info : RequestInfo)
    (hu : (isPlainKey T s = true ∧ (RequestInfoFuncMap T).lookup s = none)
      ∨ (isReqHeaderKey T s = true ∧ rh.get (s.drop T.ReqHeaderPrefix.length) = none)
      ∨ (isRespHeaderKey T s = true
          ∧ rs.get (s.drop T.RespHeaderPrefix.length) = none)) :
    infoFields T ((A ++ s :: B).filter (isPlainKey T)) info
        = infoFields T ((A ++ B).filter (isPlainKey T)) info
      ∧ headerFields T.ReqHeaderPrefix rh
          (((A ++ s :: B).filter (isReqHeaderKey T)).map
            (fun s => s.drop T.ReqHeaderPrefix.length))
        = headerFields T.ReqHeaderPrefix rh
          (((A ++ B).filter (isReqHeaderKey T)).map
            (fun s => s.drop T.ReqHeaderPrefix.length))
      ∧ headerFields T.RespHeaderPrefix rs
          (((A ++ s :: B).filter (isRespHeaderKey T)).map
            (fun s => s.drop T.RespHeaderPrefix.length))
        = headerFields T.RespHeaderPrefix rs
          (((A ++ B).filter (isRespHeaderKey T)).map
            (fun s => s.drop T.RespHeaderPrefix.length)) := by
  rcases hu with ⟨hk, hl⟩ | ⟨hk, hl⟩ | ⟨hk, hl⟩
  · have hq : isReqHeaderKey T s = false := by
      simp only [isPlainKey, isReqHeaderKey, Bool.and_eq_true, Bool.not_eq_true'] at hk ⊢
      exact hk.1
    have hr : isRespHeaderKey T s = false := by
      simp only [isPlainKey, isRespHeaderKey, Bool.and_eq_true, Bool.not_eq_true'] at hk ⊢
      simp [hk.2]
    simp [infoFields, headerFields, List.filter_cons, hk, hq, hr, hl]
  · have hp : isPlainKey T s = false := by
      simp only [isPlainKey, isReqHeaderKey] at hk ⊢
      simp [hk]
    have hr : isRespHeaderKey T s = false := by
      simp only [isRespHeaderKey, isReqHeaderKey] at hk ⊢
      simp [hk]
    simp [infoFields, headerFields, List.filter_cons, hk, hp, hr, hl]
  · have hk2 := hk
    simp only [isRespHeaderKey, Bool.and_eq_true, Bool.not_eq_true'] at hk2
    have hp : isPlainKey T s = false := by
      simp [isPlainKey, hk2.2]
    have hq : isReqHeaderKey T s = false := by
      simp [isReqHeaderKey, hk2.1]
    simp [infoFields, headerFields, List.filter_cons, hk, hp, hq, hl]

/-- C6: take a format `F` whose tokens all have at least two bytes and a
token `t` of at least two bytes, without a space, whose stripped text is a
plain name that is not in `RequestInfoFuncMap`, or a request-header token
whose header name is not a key of the request headers, or a response-header
token whose header name is not a key of the response headers. The format
with `t` inserted at token position `i` (any position: before, between or
after the tokens of `F`) renders, for those headers and any request info, the
same line as `F`. -/
theorem C6_unresolved_token_is_neutral (T : Types) (F t : GoString) (i : Nat)
    (rh rs : GoMap) (info : RequestInfo)
    (hF : ∀ x ∈ tokens F, 2 ≤ x.length)
    (ht : 2 ≤ t.length) (hsp : space ∉ t)
    (hu : (isPlainKey T (strip t) = true ∧ (RequestInfoFuncMap T).lookup (strip t) = none)
      ∨ (isReqHeaderKey T (strip t) = true
          ∧ rh.get ((strip t).drop T.ReqHeaderPrefix.length) = none)
      ∨ (isRespHeaderKey T (strip t) = true
          ∧ rs.get ((strip t).drop T.RespHeaderPrefix.length) = none)) :
    [space].intercalate (tokens F) = F
      ∧ tokens ([space].intercalate ((tokens F).take i ++ t :: (tokens F).drop i))
        = (tokens F).take i ++ t :: (tokens F).drop i
      ∧ render T ([space].intercalate ((tokens F).take i ++ t :: (tokens F).drop i))
          rh rs info = render T F rh rs info
      ∧ ∃ line, render T F rh rs info = .ok line := by
  have htok : tokens ([space].intercalate ((tokens F).take i ++ t :: (tokens F).drop i))
      = (tokens F).take i ++ t :: (tokens F).drop i := by
    unfold tokens Split
    refine List.splitOn_intercalate _ space ?_ (by simp)
    intro l hl
    rcases List.mem_append.mp hl with h1 | h1
    · exact tokens_no_space F l (List.mem_of_mem_take h1)
    · rcases List.mem_cons.mp h1 with rfl | h2
      · exact hsp
      · exact tokens_no_space F l (List.mem_of_mem_drop h2)
  have hwf : wellFormed
      ([space].intercalate ((tokens F).take i ++ t :: (tokens F).drop i)) := by
    intro x hx
    rw [htok] at hx
    rcases List.mem_append.mp hx with h1 | h1
    · exact hF x (List.mem_of_mem_take h1)
    · rcases List.mem_cons.mp h1 with rfl | h2
      · exact ht
      · exact hF x (List.mem_of_mem_drop h2)
  refine ⟨List.intercalate_splitOn F space, htok, ?_, _, render_ok T F hF rh rs info⟩
  rw [render_ok T _ hwf, render_ok T F hF]
  have hins := lineFields_insert T (((tokens F).take i).map strip)
    (((tokens F).drop i).map strip) (strip t) rh rs info hu
  have hS : stripped F = ((tokens F).take i).map strip ++ ((tokens F).drop i).map strip := by
    rw [← List.map_append, List.take_append_drop]
    rfl
  have hS2 : stripped ([space].intercalate ((tokens F).take i ++ t :: (tokens F).drop i))
      = ((tokens F).take i).map strip ++ strip t :: ((tokens F).drop i).map strip := by
    unfold stripped
    rw [htok]
    simp
  simp only [lineFields, plainKeys, reqHeaderKeys, respHeaderKeys, hS, hS2, hins.1,
    hins.2.1, hins.2.2]

theorem C6_unresolved_token_is_neutral_witness :
    render exampleTypes (utf8 "%START_TIME% %REQ.Z% %REQ.Y%")
        (.entries [(utf8 "Y", utf8 "v1")]) .nil exampleInfo
      = render exampleTypes (utf8 "%START_TIME% %REQ.Y%")
        (.entries [(utf8 "Y", utf8 "v1")]) .nil exampleInfo :=
  (C6_unresolved_token_is_neutral exampleTypes (utf8 "%START_TIME% %REQ.Y%")
    (utf8 "%REQ.Z%") 1 (.entries [(utf8 "Y", utf8 "v1")]) .nil exampleInfo
    (by decide) (by decide) (by decide) (Or.inr (Or.inl ⟨by decide, by decide⟩))).2.2.1

/-! ## The entry point -/

/-- C7: `Log` never panics. When a filter is configured and its `Decide`
returns false, the access log, and so the list of lines of its logger, is
unchanged. When no filter is configured, or `Decide` returns true, exactly
one line is appended to the lines of the logger, the line that the composite
formatter returns for the same inputs; nothing else changes. -/
theorem C7_Log_filter_frame (T : Types) (l : accesslog) (rh rs : GoMap)
    (info : RequestInfo) :
    ∃ line, l.formatter.Format T rh rs info = .ok line
      ∧ ((∃ flt, l.filter = some flt ∧ flt.Decide rh info = false) →
          l.Log T rh rs info = .ok l)
      ∧ ((l.filter = none ∨ ∃ flt, l.filter = some flt ∧ flt.Decide rh info = true) →
          l.Log T rh rs info
            = .ok { l with logger := ⟨l.logger.lines ++ [line]⟩ }) := by
  refine ⟨_, accesslogformatter_Format_eq T l.formatter rh rs info, ?_, ?_⟩
  · rintro ⟨flt, hf, hd⟩
    unfold accesslog.Log
    simp [hf, hd]
  · intro h
    unfold accesslog.Log
    rw [accesslogformatter_Format_eq T l.formatter rh rs info]
    rcases h with hf | ⟨flt, hf, hd⟩
    · simp only [hf]
      rfl
    · simp only [hf, hd]
      rfl

theorem C7_Log_filter_frame_witness :
    (accesslog.mk (utf8 "access.log") (some ⟨fun _ _ => false⟩)
        ⟨[.reqInfo ⟨[utf8 "START_TIME"]⟩]⟩ ⟨[utf8 "earlier line"]⟩).Log
        exampleTypes .nil .nil exampleInfo
      = .ok (accesslog.mk (utf8 "access.log") (some ⟨fun _ _ => false⟩)
        ⟨[.reqInfo ⟨[utf8 "START_TIME"]⟩]⟩ ⟨[utf8 "earlier line"]⟩) :=
  (C7_Log_filter_frame exampleTypes
    (accesslog.mk (utf8 "access.log") (some ⟨fun _ _ => false⟩)
      ⟨[.reqInfo ⟨[utf8 "START_TIME"]⟩]⟩ ⟨[utf8 "earlier line"]⟩)
    .nil .nil exampleInfo).choose_spec.2.1 ⟨_, rfl, rfl⟩

/-! ## Header formatters and the trailing separator -/

/-- C8: the request-header formatter returns, for the names of its list in
order, the request-header prefix, the value and one space for each name that
is a key of the request headers, and nothing for the other names; the
response-header formatter does the same with the response headers and the
response-header prefix. With the prefix `REQ.`, the format `%REQ.Y%` rendered
with request header `Y` mapped to `v` gives the prefix followed by `v`. -/
theorem C8_header_formatters (T : Types) :
    (∀ (keys : List GoString) (rh rs : GoMap) (info : RequestInfo),
      (simpleReqHeadersFormatter.mk keys).Format T rh rs info
        = (keys.filterMap (fun k =>
            (rh.get k).map (fun v => T.ReqHeaderPrefix ++ v ++ [space]))).flatten)
      ∧ (∀ (keys : List GoString) (rh rs : GoMap) (info : RequestInfo),
        (simpleRespHeadersFormatter.mk keys).Format T rh rs info
          = (keys.filterMap (fun k =>
              (rs.get k).map (fun v => T.RespHeaderPrefix ++ v ++ [space]))).flatten)
      ∧ (T.ReqHeaderPrefix = utf8 "REQ." →
          ∀ (rh rs : GoMap) (info : RequestInfo) (v : GoString),
            rh.get (utf8 "Y") = some v →
              render T (utf8 "%REQ.Y%") rh rs info = .ok (T.ReqHeaderPrefix ++ v)) := by
  refine ⟨?_, ?_, ?_⟩
  · intro keys rh rs info
    rw [simpleReqHeadersFormatter_Format_eq]
    simp only [headerFields, List.map_filterMap, Option.map_map]
    rfl
  · intro keys rh rs info
    rw [simpleRespHeadersFormatter_Format_eq]
    simp only [headerFields, List.map_filterMap, Option.map_map]
    rfl
  · intro hreq rh rs info v hv
    rw [render_ok T _ (by decide)]
    have hst : stripped (utf8 "%REQ.Y%") = [utf8 "REQ.Y"] := by decide
    have hp : plainKeys T (utf8 "%REQ.Y%") = [] := by
      unfold plainKeys isPlainKey
      rw [hst, hreq]
      rfl
    have hq : reqHeaderKeys T (utf8 "%REQ.Y%") = [utf8 "Y"] := by
      unfold reqHeaderKeys isReqHeaderKey
      rw [hst, hreq]
      decide
    have hr : respHeaderKeys T (utf8 "%REQ.Y%") = [] := by
      unfold respHeaderKeys isRespHeaderKey
      rw [hst, hreq]
      rfl
    simp [lineFields, hp, hq, hr, infoFields, headerFields, hv, List.intercalate]

theorem C8_header_formatters_witness :
    render exampleTypes (utf8 "%REQ.Y%") (.entries [(utf8 "Y", utf8 "v")]) .nil exampleInfo
      = .ok (utf8 "REQ." ++ utf8 "v") :=
  (C8_header_formatters exampleTypes).2.2 (by decide) (.entries [(utf8 "Y", utf8 "v")])
    .nil exampleInfo (utf8 "v") (by decide)

theorem formatToFormatter_inv (T : Types) (format : GoString)
    (fs : List AccessLogFormatter) (h : formatToFormatter T format = .ok fs) :
    wellFormed format := by
  by_contra hn
  unfold wellFormed at hn
  push_neg at hn
  obtain ⟨t, ht, hlt⟩ := hn
  rw [formatToFormatter_short T format ⟨t, ht, hlt⟩] at h
  cases h

theorem NewAccessLogFormatter_inv (T : Types) (format : GoString)
    (F : accesslogformatter) (h : NewAccessLogFormatter T format = .ok F) :
    ∃ p q r, F.formatters = [ .reqInfo ⟨p⟩, .reqHeaders ⟨q⟩, .respHeaders ⟨r⟩ ] := by
  unfold NewAccessLogFormatter at h
  simp only [bind, Except.bind] at h
  split at h
  · cases h
  · rename_i fs hfs
    have hwf := formatToFormatter_inv T _ fs hfs
    rw [formatToFormatter_ok T _ hwf] at hfs
    cases hfs
    cases h
    exact ⟨_, _, _, rfl⟩

/-- C9: a formatter built by `NewAccessLogFormatter` holds the plain, the
request-header and the response-header formatter, in that order. For every
input, either the concatenation of their three fragments is empty and the
line is empty, or the concatenation is the line followed by one space: the
byte that `Format` removes is the separator written after the last field. -/
theorem C9_trim_removes_separator (T : Types) (format : GoString)
    (F : accesslogformatter) (hF : NewAccessLogFormatter T format = .ok F)
    (rh rs : GoMap) (info : RequestInfo) :
    ∃ p q r, F.formatters = [ .reqInfo p, .reqHeaders q, .respHeaders r ]
      ∧ ((p.Format T rh rs info ++ q.Format T rh rs info ++ r.Format T rh rs info = []
            ∧ F.Format T rh rs info = .ok [])
          ∨ ∃ line,
              p.Format T rh rs info ++ q.Format T rh rs info ++ r.Format T rh rs info
                = line ++ [space]
              ∧ F.Format T rh rs info = .ok line) := by
  obtain ⟨p, q, r, hshape⟩ := NewAccessLogFormatter_inv T format F hF
  refine ⟨⟨p⟩, ⟨q⟩, ⟨r⟩, hshape, ?_⟩
  have hcat : (simpleRequestInfoFormatter.mk p).Format T rh rs info
      ++ (simpleReqHeadersFormatter.mk q).Format T rh rs info
      ++ (simpleRespHeadersFormatter.mk r).Format T rh rs info
      = ((infoFields T p info ++ headerFields T.ReqHeaderPrefix rh q
          ++ headerFields T.RespHeaderPrefix rs r).map (fun v => v ++ [space])).flatten := by
    simp [simpleRequestInfoFormatter_Format_eq, simpleReqHeadersFormatter_Format_eq,
      simpleRespHeadersFormatter_Format_eq]
  have hfmt : F.Format T rh rs info
      = .ok ([space].intercalate (infoFields T p info
          ++ headerFields T.ReqHeaderPrefix rh q
          ++ headerFields T.RespHeaderPrefix rs r)) := by
    have : F = ⟨[ .reqInfo ⟨p⟩, .reqHeaders ⟨q⟩, .respHeaders ⟨r⟩ ]⟩ := by
      cases F
      simp only at hshape
      rw [hshape]
    rw [this]
    exact Format_three T p q r rh rs info
  rw [hcat, hfmt]
  by_cases hL : infoFields T p info ++ headerFields T.ReqHeaderPrefix rh q
      ++ headerFields T.RespHeaderPrefix rs r = []
  · left
    rw [hL]
    exact ⟨rfl, rfl⟩
  · right
    exact ⟨_, flatten_spaced_eq_intercalate _ hL, rfl⟩

theorem C9_trim_removes_separator_witness :
    ∃ p q r, (accesslogformatter.mk [ .reqInfo ⟨[utf8 "START_TIME"]⟩, .reqHeaders ⟨[]⟩,
          .respHeaders ⟨[]⟩ ]).formatters
        = [ .reqInfo p, .reqHeaders q, .respHeaders r ]
      ∧ ((p.Format exampleTypes .nil .nil exampleInfo
            ++ q.Format exampleTypes .nil .nil exampleInfo
            ++ r.Format exampleTypes .nil .nil exampleInfo = []
            ∧ (accesslogformatter.mk [ .reqInfo ⟨[utf8 "START_TIME"]⟩, .reqHeaders ⟨[]⟩,
                .respHeaders ⟨[]⟩ ]).Format exampleTypes .nil .nil exampleInfo = .ok [])
          ∨ ∃ line,
              p.Format exampleTypes .nil .nil exampleInfo
                ++ q.Format exampleTypes .nil .nil exampleInfo
                ++ r.Format exampleTypes .nil .nil exampleInfo = line ++ [space]
              ∧ (accesslogformatter.mk [ .reqInfo ⟨[utf8 "START_TIME"]⟩, .reqHeaders ⟨[]⟩,
                  .respHeaders ⟨[]⟩ ]).Format exampleTypes .nil .nil exampleInfo
                = .ok line) :=
  C9_trim_removes_separator exampleTypes (utf8 "%START_TIME%") _ (by rfl) .nil .nil
    exampleInfo

/-- C10, as stated, fails: only the separator written after the last field
is removed. With the prefix `REQ.`, the format `%REQ.Y%` rendered with request
header `Y` mapped to the value `v` followed by a space gives `REQ.v` followed
by a space; and the format `%START_TIME% %PROTOCOL%` rendered for a request
info whose protocol is the empty string gives `T0` followed by a space. -/
theorem C10_counterexample :
    (∀ t ∈ tokens (utf8 "%REQ.Y%"), 2 ≤ t.length)
      ∧ render exampleTypes (utf8 "%REQ.Y%") (.entries [(utf8 "Y", utf8 "v ")]) .nil
          exampleInfo = .ok (utf8 "REQ.v ")
      ∧ (utf8 "REQ.v ").getLast? = some space
      ∧ (∀ t ∈ tokens (utf8 "%START_TIME% %PROTOCOL%"), 2 ≤ t.length)
      ∧ render exampleTypes (utf8 "%START_TIME% %PROTOCOL%") .nil .nil
          { exampleInfo with Protocol := [] } = .ok (utf8 "T0 ")
      ∧ (utf8 "T0 ").getLast? = some space :=
  ⟨by decide, by rfl, by decide, by decide, by rfl, by decide⟩

/-- C10, amended: for a format whose tokens all have at least two bytes, the
line has no trailing space whenever the last field written to it (a resolved
request-info text, or a header prefix followed by the value), if there is
one, is not empty and does not itself end with a space. -/
theorem C10_no_trailing_space (T : Types) (format : GoString)
    (h : ∀ t ∈ tokens format, 2 ≤ t.length) (rh rs : GoMap) (info : RequestInfo)
    (hlast : ∀ x, (lineFields T format rh rs info).getLast? = some x →
      x ≠ [] ∧ x.getLast? ≠ some space) :
    ∃ line, render T format rh rs info = .ok line ∧ line.getLast? ≠ some space := by
  refine ⟨_, render_ok T format h rh rs info, ?_⟩
  rcases List.eq_nil_or_concat (lineFields T format rh rs info) with hL | ⟨L0, x, hL⟩
  · rw [hL]
    simp [List.intercalate]
  · rw [List.concat_eq_append] at hL
    have hx := hlast x (by rw [hL, List.getLast?_concat])
    have hflat := flatten_spaced_eq_intercalate (lineFields T format rh rs info)
      (by rw [hL]; simp)
    have hsplit : ((lineFields T format rh rs info).map (fun v => v ++ [space])).flatten
        = ((L0.map (fun v => v ++ [space])).flatten ++ x) ++ [space] := by
      rw [hL]
      simp
    rw [hsplit] at hflat
    have := List.append_cancel_right hflat
    rw [← this, List.getLast?_append_of_ne_nil _ hx.1]
    exact hx.2

theorem C10_no_trailing_space_witness :
    ∃ line, render exampleTypes (utf8 "%START_TIME% %REQ.Y%")
        (.entries [(utf8 "Y", utf8 "v1")]) .nil exampleInfo = .ok line
      ∧ line.getLast? ≠ some space :=
  C10_no_trailing_space exampleTypes (utf8 "%START_TIME% %REQ.Y%") (by decide)
    (.entries [(utf8 "Y", utf8 "v1")]) .nil exampleInfo (by decide)

/-! ## Address and host extractors -/

/-- C11: each of `UpstreamLocalAddressGetter`, `DownstreamLocalAddressGetter`,
`DownstreamRemoteAddressGetter` and `UpstreamHostSelectedGetter` returns the
three bytes `nil` when its address or host accessor returns nil, and the
text of the address (its `String()`) or of the host (its `Hostname()`) when
the accessor returns a value; each is a total function of the request
info. -/
theorem C11_absent_address_is_nil (info : RequestInfo) (a : Addr) (h : HostInfo) :
    utf8 "nil" = [110, 105, 108]
      ∧ UpstreamLocalAddressGetter { info with UpstreamLocalAddress := none } = utf8 "nil"
      ∧ UpstreamLocalAddressGetter { info with UpstreamLocalAddress := some a } = a.String
      ∧ DownstreamLocalAddressGetter { info with DownstreamLocalAddress := none }
          = utf8 "nil"
      ∧ DownstreamLocalAddressGetter { info with DownstreamLocalAddress := some a }
          = a.String
      ∧ DownstreamRemoteAddressGetter { info with DownstreamRemoteAddress := none }
          = utf8 "nil"
      ∧ DownstreamRemoteAddressGetter { info with DownstreamRemoteAddress := some a }
          = a.String
      ∧ UpstreamHostSelectedGetter { info with UpstreamHost := none } = utf8 "nil"
      ∧ UpstreamHostSelectedGetter { info with UpstreamHost := some h } = h.Hostname :=
  ⟨by decide, rfl, rfl, rfl, rfl, rfl, rfl, rfl, rfl⟩

/-! ## The default format -/

theorem NewAccessLogFormatter_nil (T : Types) :
    NewAccessLogFormatter T [] = NewAccessLogFormatter T T.DefaultAccessLogFormat := by
  unfold NewAccessLogFormatter
  by_cases h : T.DefaultAccessLogFormat = []
  · simp [h]
  · simp [h]

/-- C12: `NewAccessLogFormatter` applied to the empty string has the same
outcome as applied to the default format, and the two render the same for all
header maps and every request info; when every token of the default format
has at least two bytes, both build the same formatter, which renders a
line. -/
theorem C12_empty_format_is_default (T : Types) :
    NewAccessLogFormatter T [] = NewAccessLogFormatter T T.DefaultAccessLogFormat
      ∧ (∀ (rh rs : GoMap) (info : RequestInfo),
          render T [] rh rs info = render T T.DefaultAccessLogFormat rh rs info)
      ∧ ((∀ t ∈ tokens T.DefaultAccessLogFormat, 2 ≤ t.length) →
          ∃ F, NewAccessLogFormatter T [] = .ok F
            ∧ NewAccessLogFormatter T T.DefaultAccessLogFormat = .ok F
            ∧ ∀ (rh rs : GoMap) (info : RequestInfo),
                ∃ line, F.Format T rh rs info = .ok line) := by
  refine ⟨NewAccessLogFormatter_nil T, ?_, ?_⟩
  · intro rh rs info
    unfold render
    rw [NewAccessLogFormatter_nil T]
  · intro h
    refine ⟨_, ?_, NewAccessLogFormatter_ok T _ h, ?_⟩
    · rw [NewAccessLogFormatter_nil T]
      exact NewAccessLogFormatter_ok T _ h
    · intro rh rs info
      exact ⟨_, accesslogformatter_Format_eq T _ rh rs info⟩

theorem C12_empty_format_is_default_witness :
    ∃ F, NewAccessLogFormatter exampleTypes [] = .ok F
      ∧ NewAccessLogFormatter exampleTypes exampleTypes.DefaultAccessLogFormat = .ok F
      ∧ ∀ (rh rs : GoMap) (info : RequestInfo),
          ∃ line, F.Format exampleTypes rh rs info = .ok line :=
  (C12_empty_format_is_default exampleTypes).2.2 (by decide)

theorem intercalate_ne_nil (L : List GoString)
    (h : (∃ x ∈ L, x ≠ []) ∨ 2 ≤ L.length) : [space].intercalate L ≠ [] := by
  intro h0
  have hL : L ≠ [] := by
    rintro rfl
    rcases h with ⟨x, hx, _⟩ | h
    · cases hx
    · simp at h
  have hflat := flatten_spaced_eq_intercalate L hL
  rw [h0] at hflat
  have hlen : ((L.map (fun v => v ++ [space])).flatten).length = 1 := by
    rw [hflat]
    rfl
  rcases h with ⟨x, hx, hne⟩ | h
  · have hsub : x.length + 1 ≤ ((L.map (fun v => v ++ [space])).flatten).length := by
      have hmem : x ++ [space] ∈ L.map (fun v => v ++ [space]) :=
        List.mem_map.mpr ⟨x, hx, rfl⟩
      have := (List.sublist_flatten_of_mem hmem).length_le
      simpa using this
    have hx0 : 0 < x.length := List.length_pos.mpr hne
    omega
  · match L, h with
    | a :: b :: L2, _ =>
      simp at hlen
      omega

/-- When every token of the default format has at least two bytes, the
formatter built from the empty format returns a non-empty line as soon as one
plain token of the default format is found in `RequestInfoFuncMap` with a
non-empty text, or two plain tokens of the default format are found. -/
theorem render_default_nonempty (T : Types) (rh rs : GoMap) (info : RequestInfo)
    (hwf : ∀ t ∈ tokens T.DefaultAccessLogFormat, 2 ≤ t.length)
    (hres : (∃ k ∈ plainKeys T T.DefaultAccessLogFormat,
          ∃ g, (RequestInfoFuncMap T).lookup k = some g ∧ g info ≠ [])
      ∨ 2 ≤ ((plainKeys T T.DefaultAccessLogFormat).filter
          (fun k => ((RequestInfoFuncMap T).lookup k).isSome)).length) :
    ∃ line, render T [] rh rs info = .ok line ∧ line ≠ [] := by
  have hr : render T [] rh rs info = render T T.DefaultAccessLogFormat rh rs info := by
    unfold render
    rw [NewAccessLogFormatter_nil T]
  refine ⟨_, hr.trans (render_ok T _ hwf rh rs info), ?_⟩
  apply intercalate_ne_nil
  rcases hres with ⟨k, hk, g, hg, hne⟩ | h2
  · left
    refine ⟨g info, ?_, hne⟩
    unfold lineFields
    refine List.mem_append_left _ (List.mem_append_left _ ?_)
    unfold infoFields
    exact List.mem_filterMap.mpr ⟨k, hk, by simp [hg]⟩
  · right
    have hlen : (infoFields T (plainKeys T T.DefaultAccessLogFormat) info).length
        = ((plainKeys T T.DefaultAccessLogFormat).filter
            (fun k => ((RequestInfoFuncMap T).lookup k).isSome)).length := by
      unfold infoFields
      generalize plainKeys T T.DefaultAccessLogFormat = ks
      induction ks with
      | nil => rfl
      | cons k ks ih =>
        cases hk : (RequestInfoFuncMap T).lookup k <;>
          simp [List.filterMap_cons, List.filter_cons, hk, ih]
    unfold lineFields
    simp only [List.length_append]
    omega

/-! ## Construction -/

/-- C14: `NewAccessLog` returns an error, and no access log, exactly when
`GetLoggerInstance` fails for the output, whatever the filter and the format
are: a failure of `GetLoggerInstance` is returned as it is, and any error
returned is that failure. When the logger is acquired and every token of the
format has at least two bytes, `NewAccessLog` returns, with no error, the
access log holding the output, the filter, the formatter compiled from the
format and the logger. -/
theorem C14_NewAccessLog_outcomes (T : Types)
    (GetLoggerInstance : GoString → Nat → Except GoError Logger)
    (output : GoString) (filter : Option AccessLogFilter) (format : GoString) :
    (∀ err, GetLoggerInstance output 0 = .error err →
        NewAccessLog T GetLoggerInstance output filter format = .ok (none, some err))
      ∧ (∀ l err,
          NewAccessLog T GetLoggerInstance output filter format = .ok (l, some err) →
            l = none ∧ GetLoggerInstance output 0 = .error err)
      ∧ (∀ logger, GetLoggerInstance output 0 = .ok logger →
          (∀ t ∈ tokens format, 2 ≤ t.length) →
            ∃ F, NewAccessLogFormatter T format = .ok F
              ∧ NewAccessLog T GetLoggerInstance output filter format
                  = .ok (some ⟨output, filter, F, logger⟩, none)) := by
  refine ⟨?_, ?_, ?_⟩
  · intro err h
    unfold NewAccessLog
    rw [h]
  · intro l err h
    unfold NewAccessLog at h
    cases hg : GetLoggerInstance output 0 with
    | error e =>
      rw [hg] at h
      simp only [Except.ok.injEq, Prod.mk.injEq, Option.some.injEq] at h
      exact ⟨h.1.symm, by rw [h.2]⟩
    | ok logger =>
      rw [hg] at h
      cases hf : NewAccessLogFormatter T format with
      | error e =>
        simp only [hf, bind, Except.bind] at h
        cases h
      | ok F =>
        simp only [hf, bind, Except.bind, pure, Except.pure, Except.ok.injEq,
          Prod.mk.injEq] at h
        cases h.2
  · intro logger hg hwf
    refine ⟨_, NewAccessLogFormatter_ok T format hwf, ?_⟩
    unfold NewAccessLog
    rw [hg]
    simp only [NewAccessLogFormatter_ok T format hwf, bind, Except.bind]
    rfl

theorem C14_NewAccessLog_outcomes_witness :
    ∃ F, NewAccessLogFormatter exampleTypes (utf8 "%START_TIME% %REQ.Y%") = .ok F
      ∧ NewAccessLog exampleTypes (fun _ _ => .ok ⟨[]⟩) (utf8 "access.log") none
          (utf8 "%START_TIME% %REQ.Y%")
        = .ok (some ⟨utf8 "access.log", none, F, ⟨[]⟩⟩, none) :=
  (C14_NewAccessLog_outcomes exampleTypes (fun _ _ => .ok ⟨[]⟩) (utf8 "access.log") none
    (utf8 "%START_TIME% %REQ.Y%")).2.2 ⟨[]⟩ rfl (by decide)

/-! ## Numeric extractors -/

theorem digitByte_toNat (d : Nat) (h : d < 10) : (digitByte d).toNat = 48 + d := by
  unfold digitByte
  rw [if_pos h]
  have h1 : ((48 + d).toUInt8).toNat = (48 + d) % 256 := rfl
  rw [h1]
  omega

theorem formatDigits_read :
    ∀ (fuel i : Nat) (acc : GoString), i < fuel →
      (formatDigits 10 fuel i acc).foldl (fun n b => 10 * n + (b.toNat - 48)) 0
        = acc.foldl (fun n b => 10 * n + (b.toNat - 48)) i
  | 0, _, _, h => absurd h (Nat.not_lt_zero _)
  | fuel + 1, i, acc, h => by
    unfold formatDigits
    by_cases hi : i < 10
    · rw [if_pos hi, List.foldl_cons, digitByte_toNat i hi]
      congr 1
      omega
    · rw [if_neg hi, formatDigits_read fuel (i / 10) _ (by omega), List.foldl_cons,
        digitByte_toNat (i % 10) (Nat.mod_lt _ (by decide))]
      congr 1
      omega

theorem formatDigits_digits :
    ∀ (fuel i : Nat) (acc : GoString), i < fuel →
      ∀ b ∈ formatDigits 10 fuel i acc, isDecimalDigit b = true ∨ b ∈ acc
  | 0, _, _, h, _, _ => absurd h (Nat.not_lt_zero _)
  | fuel + 1, i, acc, h, b, hb => by
    have hdig : ∀ d, d < 10 → isDecimalDigit (digitByte d) = true := by
      intro d hd
      unfold isDecimalDigit
      rw [digitByte_toNat d hd]
      simp
      omega
    unfold formatDigits at hb
    by_cases hi : i < 10
    · rw [if_pos hi] at hb
      rcases List.mem_cons.mp hb with rfl | hb2
      · exact Or.inl (hdig i hi)
      · exact Or.inr hb2
    · rw [if_neg hi] at hb
      rcases formatDigits_digits fuel (i / 10) _ (by omega) b hb with h1 | h1
      · exact Or.inl h1
      · rcases List.mem_cons.mp h1 with rfl | hb2
        · exact Or.inl (hdig (i % 10) (Nat.mod_lt _ (by decide)))
        · exact Or.inr hb2

theorem formatDigits_head :
    ∀ (fuel i : Nat) (acc : GoString), 0 < i → i < fuel →
      ∃ d rest, formatDigits 10 fuel i acc = d :: rest ∧ d ≠ 48
  | 0, _, _, _, h => absurd h (Nat.not_lt_zero _)
  | fuel + 1, i, acc, h0, h => by
    unfold formatDigits
    by_cases hi : i < 10
    · rw [if_pos hi]
      refine ⟨_, _, rfl, ?_⟩
      intro h48
      have := congrArg UInt8.toNat h48
      rw [digitByte_toNat i hi] at this
      have h2 : (48 : UInt8).toNat = 48 := rfl
      omega
    · rw [if_neg hi]
      exact formatDigits_head fuel (i / 10) _ (by omega) (by omega)

theorem FormatUint_decimal (n : Nat) : isDecimalOf (FormatUint n 10) n := by
  unfold isDecimalOf FormatUint
  have hdig := formatDigits_digits (n + 1) n [] (Nat.lt_succ_self n)
  have hread := formatDigits_read (n + 1) n [] (Nat.lt_succ_self n)
  by_cases h0 : n = 0
  · subst h0
    refine ⟨by decide, by decide, fun _ => by decide, by decide⟩
  · obtain ⟨d, rest, hd, hne⟩ := formatDigits_head (n + 1) n [] (by omega)
      (Nat.lt_succ_self n)
    refine ⟨?_, ?_, ?_, ?_⟩
    · rw [hd]
      exact List.cons_ne_nil _ _
    · intro b hb
      rcases hdig b hb with h1 | h1
      · exact h1
      · cases h1
    · intro hh
      rw [hd] at hh
      simp only [List.head?_cons, Option.some.injEq] at hh
      exact absurd hh hne
    · unfold readDecimal
      rw [hread]
      rfl

/-- C15: for every request info, `BytesSentGetter`, `BytesReceivedGetter` and
`ResponseCodeGetter` return the unsigned decimal text of the bytes sent, of
the bytes received and of the response code: not empty, digits `0`..`9` only
(so no sign), no leading zero unless the text is `0`, and the text reads back
as the value; the response code, a 32-bit value, is formatted unchanged after
its conversion to 64 bits. -/
theorem C15_decimal_extractors (info : RequestInfo) :
    isDecimalOf (BytesSentGetter info) info.BytesSent
      ∧ isDecimalOf (BytesReceivedGetter info) info.BytesReceived
      ∧ isDecimalOf (ResponseCodeGetter info) info.ResponseCode
      ∧ ResponseCodeGetter info = FormatUint info.ResponseCode 10 := by
  have hrc : info.ResponseCode % 2 ^ 64 = info.ResponseCode :=
    Nat.mod_eq_of_lt (lt_trans info.ResponseCode_lt (by decide))
  refine ⟨FormatUint_decimal _, FormatUint_decimal _, ?_, ?_⟩
  · unfold ResponseCodeGetter
    rw [hrc]
    exact FormatUint_decimal _
  · unfold ResponseCodeGetter
    rw [hrc]

/-! ## The line as a join; the positional strip -/

/-- C16: for a format whose tokens all have at least two bytes and for every
input, the rendered line is the list of field texts joined by single spaces,
the list being the extractor results of the plain tokens found in
`RequestInfoFuncMap`, then the request-header prefix followed by the value
for the request-header names that are keys of the request headers, then the
response-header prefix followed by the value for the response-header names
that are keys of the response headers, each in source order; when that list
is empty the line is the empty string. -/
theorem C16_line_is_join (T : Types) (format : GoString)
    (h : ∀ t ∈ tokens format, 2 ≤ t.length) (rh rs : GoMap) (info : RequestInfo) :
    render T format rh rs info
        = .ok ([space].intercalate
            ((plainKeys T format).filterMap
                (fun k => ((RequestInfoFuncMap T).lookup k).map (fun g => g info))
              ++ (reqHeaderKeys T format).filterMap
                (fun k => (rh.get k).map (fun v => T.ReqHeaderPrefix ++ v))
              ++ (respHeaderKeys T format).filterMap
                (fun k => (rs.get k).map (fun v => T.RespHeaderPrefix ++ v))))
      ∧ ((plainKeys T format).filterMap
              (fun k => ((RequestInfoFuncMap T).lookup k).map (fun g => g info))
            ++ (reqHeaderKeys T format).filterMap
              (fun k => (rh.get k).map (fun v => T.ReqHeaderPrefix ++ v))
            ++ (respHeaderKeys T format).filterMap
              (fun k => (rs.get k).map (fun v => T.RespHeaderPrefix ++ v)) = [] →
          render T format rh rs info = .ok []) := by
  have hr := render_ok T format h rh rs info
  unfold lineFields infoFields headerFields at hr
  refine ⟨hr, fun hnil => ?_⟩
  rw [hr, hnil]
  rfl

theorem C16_line_is_join_witness :
    render exampleTypes (utf8 "%NO_SUCH_FIELD% %REQ.Y%") .nil .nil exampleInfo = .ok [] :=
  (C16_line_is_join exampleTypes (utf8 "%NO_SUCH_FIELD% %REQ.Y%") (by decide) .nil .nil
    exampleInfo).2 (by decide)

theorem strip_delimited (a b : UInt8) (m : GoString) : strip (a :: (m ++ [b])) = m := by
  unfold strip
  simp

theorem sameButDelimiters_strip (l1 l2 : List GoString)
    (h : List.Forall₂ sameButDelimiters l1 l2) :
    l1.map strip = l2.map strip ∧ (∀ t ∈ l1, 2 ≤ t.length) ∧ (∀ t ∈ l2, 2 ≤ t.length) := by
  induction h with
  | nil => exact ⟨rfl, by simp, by simp⟩
  | cons hd _ ih =>
    obtain ⟨ih1, ih2, ih3⟩ := ih
    obtain ⟨a, b, c, d, m, e1, e2⟩ := hd
    subst e1 e2
    refine ⟨?_, ?_, ?_⟩
    · simp only [List.map_cons, strip_delimited, ih1]
    · intro t ht
      rcases List.mem_cons.mp ht with rfl | ht2
      · simp
      · exact ih2 t ht2
    · intro t ht
      rcases List.mem_cons.mp ht with rfl | ht2
      · simp
      · exact ih3 t ht2

/-- C17: the delimiter strip of `formatToFormatter` returns, for a token that
is a byte, a text `m` and a byte, the text `m`, whatever the two bytes are.
Hence two formats whose tokens correspond one to one and differ at most in
their first and last byte compile to the same three lists, and compilation
succeeds: no token is rejected for its first or last byte. -/
theorem C17_strip_is_positional (T : Types) (f1 f2 : GoString)
    (h : List.Forall₂ sameButDelimiters (tokens f1) (tokens f2)) :
    (∀ (a b : UInt8) (m : GoString),
        sliceStr (a :: (m ++ [b])) 1 (((a :: (m ++ [b])).length : Int) - 1) = .ok m)
      ∧ formatToFormatter T f1 = formatToFormatter T f2
      ∧ ∃ p q r, formatToFormatter T f1
          = .ok [ .reqInfo ⟨p⟩, .reqHeaders ⟨q⟩, .respHeaders ⟨r⟩ ] := by
  obtain ⟨hs, hw1, hw2⟩ := sameButDelimiters_strip _ _ h
  have hst : stripped f1 = stripped f2 := hs
  refine ⟨?_, ?_, _, _, _, formatToFormatter_ok T f1 hw1⟩
  · intro a b m
    rw [sliceStr_strip _ (by simp), strip_delimited]
  · rw [formatToFormatter_ok T f1 hw1, formatToFormatter_ok T f2 hw2]
    simp only [plainKeys, reqHeaderKeys, respHeaderKeys, hst]

theorem C17_strip_is_positional_witness :
    formatToFormatter exampleTypes (utf8 "%START_TIME% %REQ.Y%")
      = formatToFormatter exampleTypes (utf8 "#START_TIME# [REQ.Y]") :=
  (C17_strip_is_positional exampleTypes (utf8 "%START_TIME% %REQ.Y%")
    (utf8 "#START_TIME# [REQ.Y]")
    (by
      rw [show tokens (utf8 "%START_TIME% %REQ.Y%")
          = [utf8 "%START_TIME%", utf8 "%REQ.Y%"] from by decide,
        show tokens (utf8 "#START_TIME# [REQ.Y]")
          = [utf8 "#START_TIME#", utf8 "[REQ.Y]"] from by decide]
      exact .cons ⟨37, 37, 35, 35, utf8 "START_TIME", by decide, by decide⟩
        (.cons ⟨37, 37, 91, 93, utf8 "REQ.Y", by decide, by decide⟩ .nil))).2.1

end Accesslog
